import Mathlib

/-!
Verification of the "Channel Video Harvester" ETL pipeline
(`src/scripts/extract.py`) against its natural-language specification.

The Python functions are shallowly embedded as Lean functions:
  * JSON values returned by the provider become the inductive type `Json`;
  * Python's built-in exceptions (`KeyError`, `IndexError`, ...) become the
    inductive type `PyError`, and fallible code returns `Except PyError _`;
  * the HTTP provider is an explicit function parameter (the code's
    `requests.get` plus `.json()`), so each stage is a pure function of the
    provider's responses;
  * the unbounded `while True` pagination loop is embedded with an explicit
    fuel parameter: exhausting any finite amount of fuel models divergence.
-/

/-- A JSON value, as produced by `response.json()` in the Python source. -/
inductive Json where
  | null
  | bool (b : Bool)
  | num (n : Int)
  | str (s : String)
  | arr (items : List Json)
  | obj (fields : List (String × Json))
deriving Repr

/-- Python exceptions that the extraction code can raise.
`requestException` models `requests.exceptions.RequestException`
(any network/HTTP-level failure, including the one raised by
`response.raise_for_status()`). The source defines no error taxonomy of its
own, so these built-in exception kinds are the only failures it can produce. -/
inductive PyError where
  | keyError (k : String)
  | indexError
  | typeError
  | attributeError
  | requestException
deriving Repr, DecidableEq

/-- Lookup of a key in the field list of a JSON object (first match wins). -/
def jsonLookup : List (String × Json) → String → Option Json
  | [], _ => none
  | (k, v) :: rest, key => if k = key then some v else jsonLookup rest key

/-- Python `d[k]` on a parsed-JSON value: `KeyError` if the key is absent,
`TypeError` if `d` is not a JSON object (not subscriptable by string). -/
def pyGetKey (j : Json) (k : String) : Except PyError Json :=
  match j with
  | .obj fields =>
    match jsonLookup fields k with
    | some v => .ok v
    | none => .error (.keyError k)
  | _ => .error .typeError

/-- Python `xs[i]` on a parsed-JSON value: `IndexError` if the index is out of
range, `TypeError` if `xs` is not a JSON array. -/
def pyIndex (j : Json) (i : Nat) : Except PyError Json :=
  match j with
  | .arr xs =>
    match xs.get? i with
    | some v => .ok v
    | none => .error .indexError
  | _ => .error .typeError

/-- Python `d.get(k, default)`: total on dicts, `AttributeError` otherwise. -/
def pyDictGet (j : Json) (k : String) (default : Json) : Except PyError Json :=
  match j with
  | .obj fields => .ok ((jsonLookup fields k).getD default)
  | _ => .error .attributeError

/-- Iterating `for item in xs` requires a JSON array (`TypeError` otherwise). -/
def asList (j : Json) : Except PyError (List Json) :=
  match j with
  | .arr xs => .ok xs
  | _ => .error .typeError

/-- Python truthiness of a JSON value, as used by `if pageToken:` /
`if not pageToken:` in the source. -/
def jsonTruthy : Json → Bool
  | .null => false
  | .bool b => b
  | .num n => n != 0
  | .str s => !(s == "")
  | .arr xs => !xs.isEmpty
  | .obj fields => !fields.isEmpty

/-- Embedding of `get_playlist_id` (src/scripts/extract.py, lines 21-66).
The HTTP layer is abstracted away: `data` is the dictionary produced by
`response.json()` for the channel-lookup request. The body performs
`data["items"][0]["contentDetails"]["relatedPlaylists"]["uploads"]`,
so an empty `items` array hits the bare `[0]` index. -/
def get_playlist_id (data : Json) : Except PyError Json := do
  let items ← pyGetKey data "items"
  let channel_items ← pyIndex items 0
  let contentDetails ← pyGetKey channel_items "contentDetails"
  let relatedPlaylists ← pyGetKey contentDetails "relatedPlaylists"
  pyGetKey relatedPlaylists "uploads"

/-- The per-page loop body of `get_video_ids` that extracts
`item['contentDetails']['videoId']` for every item and appends it, in response
order, to the accumulated `video_ids` list (lines 113-115). -/
def collectVideoIds : List Json → List Json → Except PyError (List Json)
  | [], video_ids => .ok video_ids
  | item :: rest, video_ids =>
    match pyGetKey item "contentDetails" with
    | .error e => .error e
    | .ok contentDetails =>
      match pyGetKey contentDetails "videoId" with
      | .error e => .error e
      | .ok video_id => collectVideoIds rest (video_ids ++ [video_id])

/-- Embedding of the `while True` pagination loop of `get_video_ids`
(lines 99-122). `provider` maps the current page token (the part of the URL
that varies between iterations) to the parsed response, or to a
`requestException`. `fuel` bounds how many iterations we are willing to
unfold: a result of `none` means the loop is still running after `fuel`
iterations, so divergence is `∀ fuel, ... = none`. On success the result
carries the collected ids together with the number of provider requests made. -/
def get_video_ids_go (provider : Option Json → Except PyError Json) :
    Nat → Option Json → List Json → Nat →
    Option (Except PyError (List Json × Nat))
  | 0, _, _, _ => none
  | fuel + 1, pageToken, video_ids, reqs =>
    match provider pageToken with
    | .error e => some (.error e)
    | .ok data =>
      match pyDictGet data "items" (Json.arr []) with
      | .error e => some (.error e)
      | .ok itemsJson =>
        match asList itemsJson with
        | .error e => some (.error e)
        | .ok items =>
          match collectVideoIds items video_ids with
          | .error e => some (.error e)
          | .ok video_ids' =>
            match pyDictGet data "nextPageToken" Json.null with
            | .error e => some (.error e)
            | .ok tok =>
              if jsonTruthy tok then
                get_video_ids_go provider fuel (some tok) video_ids' (reqs + 1)
              else
                some (.ok (video_ids', reqs + 1))

/-- Embedding of `get_video_ids` (lines 69-129): start with no page token,
an empty `video_ids` list and zero requests made. -/
def get_video_ids (provider : Option Json → Except PyError Json)
    (fuel : Nat) : Option (Except PyError (List Json × Nat)) :=
  get_video_ids_go provider fuel none [] 0

/-- Embedding of the inner generator `batch_list` of `extract_video_data`
(lines 154-156): `for i in range(0, len(lst), batch_size): yield lst[i:i+B]`.
`List.range' 0 n step` is Python's `range(0, stop, step)` whose length for a
positive step is `(stop + step - 1) / step`; the slice `lst[i:i+B]` is
`(lst.drop i).take B`. -/
def batch_list (video_id_lst : List String) (batch_size : Nat) :
    List (List String) :=
  (List.range' 0 ((video_id_lst.length + batch_size - 1) / batch_size)
      batch_size).map
    (fun video_id => (video_id_lst.drop video_id).take batch_size)

/-- One extracted record, the dictionary built at lines 185-193 of the source.
Fields hold arbitrary JSON values because Python is dynamically typed; in real
runs they are strings, and the three counters are strings or `None`
(`Json.null`). -/
structure VideoData where
  video_id : Json
  title : Json
  publishedAt : Json
  duration : Json
  viewCount : Json
  likeCount : Json
  commentCount : Json
deriving Repr

/-- Embedding of the per-item field extraction of `extract_video_data`
(lines 178-193): bare `item[...]` subscripts raise `KeyError` when a field is
missing, while the three counters use `statistics.get(..., None)` and fall
back to `None` (`Json.null`). -/
def extractItem (item : Json) : Except PyError VideoData :=
  match pyGetKey item "id" with
  | .error e => .error e
  | .ok video_id =>
    match pyGetKey item "snippet" with
    | .error e => .error e
    | .ok snippet =>
      match pyGetKey item "contentDetails" with
      | .error e => .error e
      | .ok contentDetails =>
        match pyGetKey item "statistics" with
        | .error e => .error e
        | .ok statistics =>
          match pyGetKey snippet "title" with
          | .error e => .error e
          | .ok title =>
            match pyGetKey snippet "publishedAt" with
            | .error e => .error e
            | .ok publishedAt =>
              match pyGetKey contentDetails "duration" with
              | .error e => .error e
              | .ok duration =>
                match pyDictGet statistics "viewCount" Json.null with
                | .error e => .error e
                | .ok viewCount =>
                  match pyDictGet statistics "likeCount" Json.null with
                  | .error e => .error e
                  | .ok likeCount =>
                    match pyDictGet statistics "commentCount" Json.null with
                    | .error e => .error e
                    | .ok commentCount =>
                      .ok ⟨video_id, title, publishedAt, duration, viewCount,
                        likeCount, commentCount⟩

/-- The `for item in data.get("items", [])` loop of `extract_video_data`
(lines 178-196), appending one record per response item in response order. -/
def processItems : List Json → List VideoData → Except PyError (List VideoData)
  | [], extracted_data => .ok extracted_data
  | item :: rest, extracted_data =>
    match extractItem item with
    | .error e => .error e
    | .ok video_data => processItems rest (extracted_data ++ [video_data])

/-- Processing of one chunk's parsed response `data` inside
`extract_video_data`: `for item in data.get("items", []): ...`. -/
def processPage (data : Json) (extracted_data : List VideoData) :
    Except PyError (List VideoData) :=
  match pyDictGet data "items" (Json.arr []) with
  | .error e => .error e
  | .ok itemsJson =>
    match asList itemsJson with
    | .error e => .error e
    | .ok items => processItems items extracted_data

/-- The chunk loop of `extract_video_data` (lines 160-196): one provider
request per chunk of `batch_list`, with the chunk's ids comma-joined into the
request URL; any failure aborts the whole operation. The `Nat` component
counts the provider requests issued. -/
def extract_video_data_go (provider : String → Except PyError Json) :
    List (List String) → List VideoData → Nat →
    Except PyError (List VideoData × Nat)
  | [], extracted_data, reqs => .ok (extracted_data, reqs)
  | batch :: rest, extracted_data, reqs =>
    match provider (String.intercalate "," batch) with
    | .error e => .error e
    | .ok data =>
      match processPage data extracted_data with
      | .error e => .error e
      | .ok extracted_data' =>
        extract_video_data_go provider rest extracted_data' (reqs + 1)

/-- Embedding of `extract_video_data` (lines 132-203). `provider` maps the
comma-joined id string of a chunk to the parsed response of the `videos`
endpoint. The source fixes `batch_size` to the module constant
`max_result = 50`; it is kept as a parameter `B` here because the spec
quantifies over batch sizes. -/
def extract_video_data (provider : String → Except PyError Json)
    (video_ids : List String) (B : Nat) :
    Except PyError (List VideoData × Nat) :=
  extract_video_data_go provider (batch_list video_ids B) [] 0

/-! ### Providers used as concrete scenarios -/

/-- A provider that answers every playlist-items request with an empty page
that nevertheless carries a (truthy) `nextPageToken`: the cursor is never
omitted. -/
def alwaysMoreProvider : Option Json → Except PyError Json :=
  fun _ => .ok (Json.obj [("items", Json.arr []),
    ("nextPageToken", Json.str "token")])

/-- A provider whose first page has zero items and no next-cursor: an empty
playlist. -/
def emptyPlaylistProvider : Option Json → Except PyError Json :=
  fun _ => .ok (Json.obj [("items", Json.arr [])])

/-- Helper: under `alwaysMoreProvider` the pagination loop is still running
after any number of iterations, from any loop state. -/
theorem get_video_ids_go_alwaysMore (fuel : Nat) :
    ∀ tok acc reqs, get_video_ids_go alwaysMoreProvider fuel tok acc reqs = none := by
  induction fuel with
  | zero => intro tok acc reqs; rfl
  | succ n ih =>
    intro tok acc reqs
    simp [get_video_ids_go, alwaysMoreProvider, pyDictGet, jsonLookup, asList,
      collectVideoIds, jsonTruthy, ih]

/-- C1: the claim says that on a channel-lookup response with zero channels,
`get_playlist_id` detects the empty result explicitly and fails with
`NotFoundError`. The code instead evaluates `data["items"][0]` and raises a
bare `IndexError`: no `NotFoundError` (or any error taxonomy) exists in the
source, so the spec's stated contract is violated by the code. -/
theorem c1_zero_channels_index_error :
    get_playlist_id (Json.obj [("items", Json.arr [])]) =
      .error PyError.indexError := rfl

/-- C2: the claim says the pagination loop of `get_video_ids` terminates on
every input thanks to an explicit page-count safety bound. The code's
`while True` loop has no such bound: against a provider that never omits the
cursor the loop is still running after `fuel` iterations, for every `fuel`,
i.e. it runs forever. -/
theorem c2_pagination_loop_never_terminates :
    ∀ fuel : Nat, get_video_ids alwaysMoreProvider fuel = none :=
  fun fuel => get_video_ids_go_alwaysMore fuel none [] 0

/-- C9: for a playlist whose first page response has zero items and no
next-cursor, `get_video_ids` returns the empty sequence (after exactly one
request) and raises no error. -/
theorem c9_empty_playlist_ok (provider : Option Json → Except PyError Json)
    (fields : List (String × Json)) (fuel : Nat)
    (hresp : provider none = .ok (Json.obj fields))
    (hitems : jsonLookup fields "items" = some (Json.arr []))
    (htok : jsonLookup fields "nextPageToken" = none)
    (hfuel : 0 < fuel) :
    get_video_ids provider fuel = some (.ok ([], 1)) := by
  obtain ⟨f, rfl⟩ := Nat.exists_eq_add_of_lt hfuel
  simp [get_video_ids, get_video_ids_go, hresp, pyDictGet, hitems, htok,
    asList, collectVideoIds, jsonTruthy]

/-- Witness for C9 at a concrete empty-playlist provider. -/
theorem c9_witness :
    get_video_ids emptyPlaylistProvider 1 = some (.ok ([], 1)) :=
  c9_empty_playlist_ok emptyPlaylistProvider [("items", Json.arr [])] 1
    rfl rfl rfl (by decide)

/-- C10: on the empty id sequence, `batch_list` yields no chunks, so
`extract_video_data` makes zero provider requests and returns the empty
result. -/
theorem c10_empty_input_no_requests
    (provider : String → Except PyError Json) (B : Nat) (hB : 0 < B) :
    batch_list [] B = [] ∧ extract_video_data provider [] B = .ok ([], 0) := by
  have h : batch_list [] B = [] := by
    have hz : (B - 1) / B = 0 := Nat.div_eq_of_lt (by omega)
    simp [batch_list, hz]
  exact ⟨h, by simp [extract_video_data, h, extract_video_data_go]⟩

/-- Witness for C10 at batch size 50 (the source's `max_result`). -/
theorem c10_witness :
    batch_list [] 50 = [] ∧
      extract_video_data (fun _ => .ok Json.null) [] 50 = .ok ([], 0) :=
  c10_empty_input_no_requests (fun _ => .ok Json.null) 50 (by decide)

/-! ### C4: batching -/

/-- Each chunk produced by `batch_list` is a slice of length at most the
batch size. -/
theorem batch_list_chunk_length_le (lst : List String) (B : Nat) :
    ∀ c ∈ batch_list lst B, c.length ≤ B := by
  intro c hc
  simp only [batch_list, List.mem_map] at hc
  obtain ⟨i, _, rfl⟩ := hc
  simp

/-- Shifting the start of the index range by `B` is the same as slicing the
list with its first `B` elements dropped. -/
theorem batch_map_shift (lst : List String) (B : Nat) :
    ∀ (k s : Nat),
      (List.range' (s + B) k B).map (fun i => (lst.drop i).take B) =
        (List.range' s k B).map (fun i => ((lst.drop B).drop i).take B) := by
  intro k
  induction k with
  | zero => intro s; rfl
  | succ n ih =>
    intro s
    rw [List.range'_succ, List.range'_succ]
    simp only [List.map_cons]
    refine congrArg₂ _ ?_ ?_
    · rw [List.drop_drop, Nat.add_comm B s]
    · exact ih (s + B)

/-- The chunks of `batch_list` concatenate back to the input list. -/
theorem batch_list_flatten (B : Nat) (hB : 0 < B) :
    ∀ (n : Nat) (lst : List String), lst.length = n →
      (batch_list lst B).flatten = lst := by
  intro n
  induction n using Nat.strong_induction_on with
  | _ n ih =>
    intro lst hlen
    cases lst with
    | nil =>
      have hz : (B - 1) / B = 0 := Nat.div_eq_of_lt (by omega)
      simp [batch_list, hz]
    | cons x xs =>
      have hpos : 0 < (x :: xs).length := by simp
      have h1 : (x :: xs).length + B - 1 = ((x :: xs).length - 1) + B := by
        omega
      have hcount : ((x :: xs).length + B - 1) / B =
          ((x :: xs).length - 1) / B + 1 := by
        rw [h1, Nat.add_div_right _ hB]
      have htail : (((x :: xs).drop B).length + B - 1) / B =
          ((x :: xs).length - 1) / B := by
        rw [List.length_drop]
        by_cases hle : (x :: xs).length ≤ B
        · have h2 : (x :: xs).length - B + B - 1 = B - 1 := by omega
          rw [h2, Nat.div_eq_of_lt (show B - 1 < B by omega),
            Nat.div_eq_of_lt (show (x :: xs).length - 1 < B by omega)]
        · have h2 : (x :: xs).length - B + B - 1 = (x :: xs).length - 1 := by
            omega
          rw [h2]
      have hdec : ((x :: xs).drop B).length < n := by
        rw [List.length_drop]
        omega
      have hrec := ih ((x :: xs).drop B).length hdec ((x :: xs).drop B) rfl
      unfold batch_list
      rw [hcount, List.range'_succ, List.map_cons, List.flatten_cons,
        Nat.zero_add, List.drop_zero]
      have hshift := batch_map_shift (x :: xs) B (((x :: xs).length - 1) / B) 0
      rw [Nat.zero_add] at hshift
      rw [hshift]
      have heq : (List.range' 0 (((x :: xs).length - 1) / B) B).map
          (fun i => (((x :: xs).drop B).drop i).take B) =
          batch_list ((x :: xs).drop B) B := by
        unfold batch_list
        rw [htail]
      rw [heq, hrec, List.take_append_drop]

/-- On success, `extract_video_data_go` issues exactly one request per chunk. -/
theorem extract_video_data_go_count (provider : String → Except PyError Json) :
    ∀ (chunks : List (List String)) (acc : List VideoData) (reqs : Nat)
      (recs : List VideoData) (n : Nat),
      extract_video_data_go provider chunks acc reqs = .ok (recs, n) →
      n = reqs + chunks.length := by
  intro chunks
  induction chunks with
  | nil =>
    intro acc reqs recs n h
    simp [extract_video_data_go] at h
    simpa using h.2.symm
  | cons batch rest ih =>
    intro acc reqs recs n h
    rw [extract_video_data_go] at h
    split at h
    · simp at h
    · split at h
      · simp at h
      · have := ih _ _ _ _ h
        simp only [List.length_cons]
        omega

/-- C4: `batch_list` partitions the input id sequence into consecutive chunks
of at most `B` identifiers whose concatenation is the input, there are exactly
`ceil(M/B) = (M + B - 1) / B` chunks, and a successful `extract_video_data`
run issues exactly that many provider requests (one per chunk). -/
theorem c4_batching_partitions_and_requests (video_ids : List String)
    (B : Nat) (provider : String → Except PyError Json) (hB : 0 < B) :
    (∀ c ∈ batch_list video_ids B, c.length ≤ B) ∧
    (batch_list video_ids B).flatten = video_ids ∧
    (batch_list video_ids B).length = (video_ids.length + B - 1) / B ∧
    (∀ recs n, extract_video_data provider video_ids B = .ok (recs, n) →
      n = (video_ids.length + B - 1) / B) := by
  refine ⟨batch_list_chunk_length_le video_ids B,
    batch_list_flatten B hB video_ids.length video_ids rfl, ?_, ?_⟩
  · simp [batch_list]
  · intro recs n h
    have := extract_video_data_go_count provider (batch_list video_ids B)
      [] 0 recs n h
    simpa [batch_list] using this

/-- Witness for C4: the spec's own scenario, ids `["v1","v2","v3"]` with batch
size 2 (two chunks, two requests). -/
theorem c4_witness :
    (∀ c ∈ batch_list ["v1", "v2", "v3"] 2, c.length ≤ 2) ∧
    (batch_list ["v1", "v2", "v3"] 2).flatten = ["v1", "v2", "v3"] ∧
    (batch_list ["v1", "v2", "v3"] 2).length =
      ((["v1", "v2", "v3"] : List String).length + 2 - 1) / 2 ∧
    (∀ recs n,
      extract_video_data (fun _ => .ok (Json.obj [("items", Json.arr [])]))
          ["v1", "v2", "v3"] 2 = .ok (recs, n) →
      n = ((["v1", "v2", "v3"] : List String).length + 2 - 1) / 2) :=
  c4_batching_partitions_and_requests ["v1", "v2", "v3"] 2
    (fun _ => .ok (Json.obj [("items", Json.arr [])])) (by decide)

/-! ### C3: pagination -/

/-- Starting index encoded in a page token of `pagedProvider`: the initial
request carries no token and starts at item 0; the token for a later page is
the numeric index of its first item. -/
def tokStart : Option Json → Nat
  | none => 0
  | some (Json.num i) => i.toNat
  | some _ => 0

/-- Shape of one playlist-items response entry, holding the video id at
`item['contentDetails']['videoId']` as read by the source. -/
def playlistItem (v : String) : Json :=
  Json.obj [("contentDetails", Json.obj [("videoId", Json.str v)])]

/-- The page of playlist `vids` that starts at item `start`, with page size
`P`: up to `P` items in playlist order, plus a `nextPageToken` iff more items
remain after this page. -/
def pageAt (vids : List String) (P start : Nat) : Json :=
  let items := Json.arr (((vids.drop start).take P).map playlistItem)
  if start + P < vids.length then
    Json.obj [("items", items),
      ("nextPageToken", Json.num (Int.ofNat (start + P)))]
  else
    Json.obj [("items", items)]

/-- A provider that paginates the fixed playlist `vids` in pages of size `P`. -/
def pagedProvider (vids : List String) (P : Nat) :
    Option Json → Except PyError Json :=
  fun tok => .ok (pageAt vids P (tokStart tok))

/-- Collecting the ids of a page appends exactly that page's video ids, in
order, to the accumulator. -/
theorem collectVideoIds_playlistItems (page : List String) :
    ∀ acc, collectVideoIds (page.map playlistItem) acc =
      .ok (acc ++ page.map Json.str) := by
  induction page with
  | nil => intro acc; simp [collectVideoIds]
  | cons v rest ih =>
    intro acc
    have h1 : pyGetKey (playlistItem v) "contentDetails" =
        .ok (Json.obj [("videoId", Json.str v)]) := rfl
    have h2 : pyGetKey (Json.obj [("videoId", Json.str v)]) "videoId" =
        .ok (Json.str v) := rfl
    simp [collectVideoIds, h1, h2, ih]

/-- The token for the page starting at item `n` decodes back to `n`. -/
theorem tokStart_num (n : Nat) :
    tokStart (some (Json.num (Int.ofNat n))) = n := by
  simp [tokStart]

/-- Loop invariant for `get_video_ids` against `pagedProvider`: from a state
whose token points at item `start`, with enough fuel, the loop returns the
remaining ids in order and makes `max 1 (ceil((N - start)/P))` further
requests. -/
theorem get_video_ids_go_paged (vids : List String) (P : Nat) (hP : 0 < P) :
    ∀ (fuel : Nat) (tok : Option Json) (acc : List Json) (reqs : Nat),
      vids.length ≤ tokStart tok + fuel * P → 1 ≤ fuel →
      get_video_ids_go (pagedProvider vids P) fuel tok acc reqs =
        some (.ok (acc ++ (vids.drop (tokStart tok)).map Json.str,
          reqs + max 1 ((vids.length - tokStart tok + P - 1) / P))) := by
  intro fuel
  induction fuel with
  | zero => intro tok acc reqs _ h1; exact absurd h1 (by omega)
  | succ f ih =>
    intro tok acc reqs hfuel _
    by_cases hmore : tokStart tok + P < vids.length
    · have hpage : pageAt vids P (tokStart tok) =
          Json.obj [("items", Json.arr
              (((vids.drop (tokStart tok)).take P).map playlistItem)),
            ("nextPageToken", Json.num (Int.ofNat (tokStart tok + P)))] := by
        simp [pageAt, hmore]
      have htr : jsonTruthy (Json.num (Int.ofNat (tokStart tok + P))) =
          true := by
        simp [jsonTruthy]
        omega
      have hf1 : 1 ≤ f := by
        rcases Nat.eq_zero_or_pos f with hf0 | hfpos
        · subst hf0
          rw [Nat.one_mul] at hfuel
          omega
        · exact hfpos
      have hmul : vids.length ≤ (tokStart tok + P) + f * P := by
        rw [Nat.succ_mul] at hfuel
        omega
      have hrec := ih (some (Json.num (Int.ofNat (tokStart tok + P))))
        (acc ++ ((vids.drop (tokStart tok)).take P).map Json.str) (reqs + 1)
        (by rw [tokStart_num]; exact hmul) hf1
      rw [tokStart_num] at hrec
      have hsplit : (vids.drop (tokStart tok)).map Json.str =
          ((vids.drop (tokStart tok)).take P).map Json.str ++
            (vids.drop (tokStart tok + P)).map Json.str := by
        rw [← List.map_append]
        rw [show vids.drop (tokStart tok + P) =
          (vids.drop (tokStart tok)).drop P from (List.drop_drop ..).symm]
        rw [List.take_append_drop]
      have hx1 : 1 ≤ (vids.length - (tokStart tok + P) + P - 1) / P :=
        (Nat.one_le_div_iff hP).2 (by omega)
      have hx2 : (vids.length - tokStart tok + P - 1) / P =
          (vids.length - (tokStart tok + P) + P - 1) / P + 1 := by
        have he : vids.length - tokStart tok + P - 1 =
            (vids.length - (tokStart tok + P) + P - 1) + P := by omega
        rw [he, Nat.add_div_right _ hP]
      have hcnt : reqs + 1 + max 1
          ((vids.length - (tokStart tok + P) + P - 1) / P) =
          reqs + max 1 ((vids.length - tokStart tok + P - 1) / P) := by
        rw [hx2, Nat.max_eq_right hx1,
          Nat.max_eq_right (Nat.le_add_left 1 _)]
        ring
      rw [get_video_ids_go]
      rw [show pagedProvider vids P tok = .ok (pageAt vids P (tokStart tok))
        from rfl, hpage]
      show (match collectVideoIds
          (((vids.drop (tokStart tok)).take P).map playlistItem) acc with
        | Except.error e => some (Except.error e)
        | Except.ok video_ids' =>
          if jsonTruthy (Json.num (Int.ofNat (tokStart tok + P))) = true then
            get_video_ids_go (pagedProvider vids P) f
              (some (Json.num (Int.ofNat (tokStart tok + P))))
              video_ids' (reqs + 1)
          else some (Except.ok (video_ids', reqs + 1))) = _
      rw [show collectVideoIds
          (((vids.drop (tokStart tok)).take P).map playlistItem) acc =
          .ok (acc ++ ((vids.drop (tokStart tok)).take P).map Json.str)
        from collectVideoIds_playlistItems _ _]
      show (if jsonTruthy (Json.num (Int.ofNat (tokStart tok + P))) = true then
          get_video_ids_go (pagedProvider vids P) f
            (some (Json.num (Int.ofNat (tokStart tok + P))))
            (acc ++ ((vids.drop (tokStart tok)).take P).map Json.str)
            (reqs + 1)
        else
          some (Except.ok
            (acc ++ ((vids.drop (tokStart tok)).take P).map Json.str,
            reqs + 1))) = _
      rw [if_pos htr, hrec, hcnt, hsplit, List.append_assoc]
    · have hpage : pageAt vids P (tokStart tok) =
          Json.obj [("items", Json.arr
              (((vids.drop (tokStart tok)).take P).map playlistItem))] := by
        simp [pageAt, hmore]
      have htake : (vids.drop (tokStart tok)).take P =
          vids.drop (tokStart tok) := by
        apply List.take_of_length_le
        rw [List.length_drop]
        omega
      have hmax : max 1 ((vids.length - tokStart tok + P - 1) / P) = 1 := by
        have hlt : (vids.length - tokStart tok + P - 1) / P < 2 := by
          rw [Nat.div_lt_iff_lt_mul hP]
          omega
        omega
      rw [get_video_ids_go]
      rw [show pagedProvider vids P tok = .ok (pageAt vids P (tokStart tok))
        from rfl, hpage]
      show (match collectVideoIds
          (((vids.drop (tokStart tok)).take P).map playlistItem) acc with
        | Except.error e => some (Except.error e)
        | Except.ok video_ids' =>
          if jsonTruthy Json.null = true then
            get_video_ids_go (pagedProvider vids P) f (some Json.null)
              video_ids' (reqs + 1)
          else some (Except.ok (video_ids', reqs + 1))) = _
      rw [show collectVideoIds
          (((vids.drop (tokStart tok)).take P).map playlistItem) acc =
          .ok (acc ++ ((vids.drop (tokStart tok)).take P).map Json.str)
        from collectVideoIds_playlistItems _ _]
      show some (Except.ok
          (acc ++ ((vids.drop (tokStart tok)).take P).map Json.str,
          reqs + 1)) = _
      rw [htake, hmax]

/-- C3 counterexample: the claim, as stated, fails for the empty playlist
(`N = 0`). Serving an empty playlist paginated with page size `P = 2`, the
code still issues one request (the unconditional first iteration of the
`while True` loop), but `ceil(N/P) = (0 + 2 - 1) / 2 = 0`. -/
theorem c3_counterexample_empty_playlist :
    get_video_ids (pagedProvider [] 2) 5 = some (.ok ([], 1)) ∧
      (([] : List String).length + 2 - 1) / 2 ≠ 1 := by
  constructor
  · rfl
  · decide

/-- C3 (amended): for a playlist of `N` items paginated in pages of size
`P > 0`, `get_video_ids` returns exactly the `N` video ids in playlist order
and issues exactly `max 1 (ceil(N/P))` page requests — i.e. `ceil(N/P)`
requests for `N ≥ 1` as the claim states, but one request (not zero) for the
empty playlist. -/
theorem c3_pagination_collects_all_ids (vids : List String) (P : Nat)
    (hP : 0 < P) :
    get_video_ids (pagedProvider vids P) (vids.length + 1) =
      some (.ok (vids.map Json.str,
        max 1 ((vids.length + P - 1) / P))) := by
  have hfuel : vids.length ≤ tokStart none + (vids.length + 1) * P := by
    have h1 : vids.length + 1 ≤ (vids.length + 1) * P :=
      Nat.le_mul_of_pos_right _ hP
    simp [tokStart]
    omega
  have h := get_video_ids_go_paged vids P hP (vids.length + 1) none [] 0
    hfuel (by omega)
  simpa [get_video_ids, tokStart] using h

/-- Witness for C3 at the spec's own scenario: three ids in pages of size 2
give `["v1","v2","v3"]` via exactly 2 requests. -/
theorem c3_witness :
    get_video_ids (pagedProvider ["v1", "v2", "v3"] 2)
        ((["v1", "v2", "v3"] : List String).length + 1) =
      some (.ok ([Json.str "v1", Json.str "v2", Json.str "v3"],
        max 1 (((["v1", "v2", "v3"] : List String).length + 2 - 1) / 2))) :=
  c3_pagination_collects_all_ids ["v1", "v2", "v3"] 2 (by decide)

/-! ### C5, C6, C7: per-item extraction -/

/-- C5: whenever a response item's `statistics` object omits one of the three
counters, the corresponding field of the produced record is the explicit
absent value `Json.null` (Python `None`, from `statistics.get(..., None)`) —
never a synthesized `"0"`; and, the record being a fixed-shape structure, the
key itself is never missing. -/
theorem c5_missing_counters_map_to_null (item : Json)
    (stats : List (String × Json)) (vd : VideoData)
    (hstats : pyGetKey item "statistics" = .ok (Json.obj stats))
    (hok : extractItem item = .ok vd) :
    (jsonLookup stats "viewCount" = none → vd.viewCount = Json.null) ∧
    (jsonLookup stats "likeCount" = none → vd.likeCount = Json.null) ∧
    (jsonLookup stats "commentCount" = none → vd.commentCount = Json.null) := by
  rw [extractItem] at hok
  split at hok
  · exact absurd hok (by simp)
  · split at hok
    · exact absurd hok (by simp)
    · split at hok
      · exact absurd hok (by simp)
      · split at hok
        · exact absurd hok (by simp)
        · rename_i statistics hstat2
          split at hok
          · exact absurd hok (by simp)
          · split at hok
            · exact absurd hok (by simp)
            · split at hok
              · exact absurd hok (by simp)
              · split at hok
                · exact absurd hok (by simp)
                · rename_i viewCount hvc
                  split at hok
                  · exact absurd hok (by simp)
                  · rename_i likeCount hlc
                    split at hok
                    · exact absurd hok (by simp)
                    · rename_i commentCount hcc
                      rw [hstats] at hstat2
                      injection hstat2 with hstat2
                      subst hstat2
                      simp only [pyDictGet] at hvc hlc hcc
                      injection hok with hok
                      subst hok
                      injection hvc with hvc
                      injection hlc with hlc
                      injection hcc with hcc
                      refine ⟨fun hn => ?_, fun hn => ?_, fun hn => ?_⟩
                      · simp [← hvc, hn]
                      · simp [← hlc, hn]
                      · simp [← hcc, hn]

/-- A well-formed response item for video `v` whose statistics object is
empty: all three counters are absent (e.g. a video with hidden statistics). -/
def statslessItem (v : String) : Json :=
  Json.obj [("id", Json.str v),
    ("snippet", Json.obj [("title", Json.str "a title"),
      ("publishedAt", Json.str "2024-01-01T00:00:00Z")]),
    ("contentDetails", Json.obj [("duration", Json.str "PT1M")]),
    ("statistics", Json.obj [])]

/-- Witness for C5 at a concrete item whose statistics omit all three
counters. -/
theorem c5_witness :
    (jsonLookup [] "viewCount" = none →
      (VideoData.mk (Json.str "v1") (Json.str "a title")
        (Json.str "2024-01-01T00:00:00Z") (Json.str "PT1M")
        Json.null Json.null Json.null).viewCount = Json.null) ∧
    (jsonLookup [] "likeCount" = none →
      (VideoData.mk (Json.str "v1") (Json.str "a title")
        (Json.str "2024-01-01T00:00:00Z") (Json.str "PT1M")
        Json.null Json.null Json.null).likeCount = Json.null) ∧
    (jsonLookup [] "commentCount" = none →
      (VideoData.mk (Json.str "v1") (Json.str "a title")
        (Json.str "2024-01-01T00:00:00Z") (Json.str "PT1M")
        Json.null Json.null Json.null).commentCount = Json.null) :=
  c5_missing_counters_map_to_null (statslessItem "v1") []
    (VideoData.mk (Json.str "v1") (Json.str "a title")
      (Json.str "2024-01-01T00:00:00Z") (Json.str "PT1M")
      Json.null Json.null Json.null) rfl rfl

/-- On success, the item loop of `extract_video_data` produces exactly one
record per response item. -/
theorem processItems_length (items : List Json) :
    ∀ (acc recs : List VideoData), processItems items acc = .ok recs →
      recs.length = acc.length + items.length := by
  induction items with
  | nil =>
    intro acc recs h
    simp [processItems] at h
    simp [← h]
  | cons item rest ih =>
    intro acc recs h
    rw [processItems] at h
    split at h
    · simp at h
    · have := ih _ _ h
      simp only [List.length_append, List.length_cons, List.length_nil]
        at this ⊢
      omega

/-- If every response item is individually extractable, the item loop
succeeds (no error is raised). -/
theorem processItems_ok (items : List Json)
    (hwf : ∀ i ∈ items, (extractItem i).isOk = true) :
    ∀ acc, ∃ recs, processItems items acc = .ok recs := by
  induction items with
  | nil => intro acc; exact ⟨acc, rfl⟩
  | cons item rest ih =>
    intro acc
    have hitem : (extractItem item).isOk = true := hwf item (by simp)
    cases hx : extractItem item with
    | error e => rw [hx] at hitem; simp [Except.isOk, Except.toBool] at hitem
    | ok vd =>
      obtain ⟨recs, hrecs⟩ := ih (fun i hi => hwf i (by simp [hi]))
        (acc ++ [vd])
      exact ⟨recs, by rw [processItems, hx]; exact hrecs⟩

/-- C6: for a chunk of identifiers whose response carries `items` (each
individually well-formed, and — as the provider guarantees — at most one per
identifier sent), the chunk's processing inside `extract_video_data` raises
no error and produces exactly one record per response item: at most
chunk-size records, and strictly fewer when the provider dropped an
identifier (e.g. a deleted video), which is tolerated, not an error. -/
theorem c6_records_per_chunk_bounded (chunk : List String)
    (items : List Json) (hlen : items.length ≤ chunk.length)
    (hwf : ∀ i ∈ items, (extractItem i).isOk = true) :
    ∃ recs, processPage (Json.obj [("items", Json.arr items)]) [] = .ok recs ∧
      recs.length = items.length ∧ recs.length ≤ chunk.length ∧
      (items.length < chunk.length → recs.length < chunk.length) := by
  obtain ⟨recs, hrecs⟩ := processItems_ok items hwf []
  have hL := processItems_length items [] recs hrecs
  simp only [List.length_nil, Nat.zero_add] at hL
  refine ⟨recs, ?_, hL, by omega, by omega⟩
  rw [processPage]
  rw [show pyDictGet (Json.obj [("items", Json.arr items)]) "items"
    (Json.arr []) = .ok (Json.arr items) from rfl]
  exact hrecs

/-- Witness for C6: a chunk of three identifiers whose response has only two
items (one video no longer available) yields two records and no error. -/
theorem c6_witness :
    ∃ recs, processPage (Json.obj [("items",
        Json.arr [statslessItem "v1", statslessItem "v3"])]) [] = .ok recs ∧
      recs.length = ([statslessItem "v1", statslessItem "v3"] :
        List Json).length ∧
      recs.length ≤ (["v1", "v2", "v3"] : List String).length ∧
      (([statslessItem "v1", statslessItem "v3"] : List Json).length <
          (["v1", "v2", "v3"] : List String).length →
        recs.length < (["v1", "v2", "v3"] : List String).length) :=
  c6_records_per_chunk_bounded ["v1", "v2", "v3"]
    [statslessItem "v1", statslessItem "v3"] (by decide)
    (by decide)

/-- A videos-endpoint provider whose single response item lacks the expected
`snippet` field: a malformed response shape. -/
def malformedVideosProvider : String → Except PyError Json :=
  fun _ => .ok (Json.obj [("items",
    Json.arr [Json.obj [("id", Json.str "v1")]])])

/-- C7: the claim says a response whose shape does not match expectations
makes the affected stage fail with `SchemaError`, one of four distinguishable
error kinds. The code defines no such taxonomy: a malformed videos-response
item makes `extract_video_data` raise a bare `KeyError("snippet")`, and a
channel response without `items` makes `get_playlist_id` raise a bare
`KeyError("items")` — undifferentiated built-in exceptions. -/
theorem c7_malformed_response_raises_bare_key_error :
    extract_video_data malformedVideosProvider ["v1"] 50 =
      .error (PyError.keyError "snippet") ∧
    get_playlist_id (Json.obj []) = .error (PyError.keyError "items") :=
  ⟨rfl, rfl⟩

/-! ### C8: serialization round-trip

`save_to_json` (src/scripts/extract.py, lines 205-228) persists the extracted
records with `json.dump(extracted_data, file, indent=4, ensure_ascii=False)`.
The writer below models, character by character, the document that call
produces for a list of records of the spec's `VideoRecord` shape (four string
fields and three optional counters; an absent counter is Python `None` and
serializes as `null`): indent-4 layout, keys in the dictionary's insertion
order, `ensure_ascii=False` escaping (only `"`, `\` and control characters
are escaped; all other characters, including non-ASCII, are written
verbatim). The directory creation, the date-based file name and the
file-handle plumbing are filesystem effects outside the embedding. -/

/-- A record of the artifact, as the spec's data model defines it: the three
counters are optional, absent when the provider withholds a statistic. -/
structure VideoRecord where
  video_id : String
  title : String
  publishedAt : String
  duration : String
  viewCount : Option String
  likeCount : Option String
  commentCount : Option String
deriving Repr

/-- The double-quote character. -/
def quoteChar : Char := Char.ofNat 34

/-- The backslash character. -/
def backslashChar : Char := Char.ofNat 92

/-- The opening-brace character. -/
def obraceChar : Char := Char.ofNat 123

/-- The closing-brace character. -/
def cbraceChar : Char := Char.ofNat 125

/-- Lowercase hexadecimal digit for `n < 16`, as in Python's `'\\u%04x'`. -/
def hexDigit (n : Nat) : Char :=
  if n < 10 then Char.ofNat (48 + n) else Char.ofNat (87 + n)

/-- How `json.dump` with `ensure_ascii=False` writes one character inside a
string literal: `"` and `\` get a backslash escape, the five control
characters with short forms use them, any other control character becomes
`\u00xx`, and every other character — in particular every non-ASCII
character — is written verbatim. -/
def escChar (c : Char) : List Char :=
  if c = quoteChar then [backslashChar, quoteChar]
  else if c = backslashChar then [backslashChar, backslashChar]
  else if c = Char.ofNat 8 then [backslashChar, 'b']
  else if c = Char.ofNat 12 then [backslashChar, 'f']
  else if c = Char.ofNat 10 then [backslashChar, 'n']
  else if c = Char.ofNat 13 then [backslashChar, 'r']
  else if c = Char.ofNat 9 then [backslashChar, 't']
  else if c.toNat < 32 then
    [backslashChar, 'u', '0', '0', hexDigit (c.toNat / 16),
      hexDigit (c.toNat % 16)]
  else [c]

/-- Escape a whole string body, character by character. -/
def escape : List Char → List Char
  | [] => []
  | c :: cs => escChar c ++ escape cs

/-- A JSON string literal: the escaped body between double quotes. -/
def quoteChars (s : List Char) : List Char :=
  quoteChar :: (escape s ++ [quoteChar])

/-- The characters of the JSON literal `null`. -/
def nullChars : List Char := ['n', 'u', 'l', 'l']

/-- Serialization of one field value: a string literal, or `null` for an
absent counter. -/
def dumpFieldChars : Option String → List Char
  | some s => quoteChars s.data
  | none => nullChars

/-- `n` spaces of indentation. -/
def spacesN (n : Nat) : List Char := List.replicate n ' '

/-- One `"key": value` member line at the records' indent level (8 spaces),
followed by the continuation `rest`. -/
def memberChars (key : String) (v : Option String) (rest : List Char) :
    List Char :=
  spacesN 8 ++ (quoteChars key.data ++ (':' :: ' ' :: (dumpFieldChars v ++ rest)))

/-- The seven member lines of one record, separated by `",\n"`, closed by the
record's `}` at indent 4, followed by `rest`. The key order is the insertion
order of the dictionary built at lines 185-193 of the source. -/
def recordBodyChars (r : VideoRecord) (rest : List Char) : List Char :=
  memberChars "video_id" (some r.video_id) (',' :: '\n' ::
    memberChars "title" (some r.title) (',' :: '\n' ::
      memberChars "publishedAt" (some r.publishedAt) (',' :: '\n' ::
        memberChars "duration" (some r.duration) (',' :: '\n' ::
          memberChars "viewCount" r.viewCount (',' :: '\n' ::
            memberChars "likeCount" r.likeCount (',' :: '\n' ::
              memberChars "commentCount" r.commentCount
                ('\n' :: (spacesN 4 ++ (cbraceChar :: rest)))))))))

/-- One record object at indent 4, followed by `rest`. -/
def recordChars (r : VideoRecord) (rest : List Char) : List Char :=
  spacesN 4 ++ (obraceChar :: '\n' :: recordBodyChars r rest)

/-- The comma-separated record objects of a non-empty artifact, ending with
the closing `]` of the top-level array. -/
def recordsChars : List VideoRecord → List Char
  | [] => []
  | r :: rs =>
    recordChars r
      (match rs with
       | [] => '\n' :: [']']
       | _ :: _ => ',' :: '\n' :: recordsChars rs)

/-- The whole artifact: `[]` for no records, otherwise the bracketed,
newline-separated record objects. -/
def artifactChars : List VideoRecord → List Char
  | [] => ['[', ']']
  | r :: rs => '[' :: '\n' :: recordsChars (r :: rs)

/-- The text `save_to_json` writes (the `json.dump(extracted_data, file,
indent=4, ensure_ascii=False)` call at lines 225-226), for records of the
spec's `VideoRecord` shape. -/
def save_to_json (extracted_data : List VideoRecord) : String :=
  String.mk (artifactChars extracted_data)

/-- Whitespace as JSON knows it. -/
def isWsChar (c : Char) : Bool :=
  c == ' ' || c == '\n' || c == '\t' || c == '\r'

/-- Drop leading whitespace. -/
def skipWs : List Char → List Char
  | [] => []
  | c :: rest => if isWsChar c then skipWs rest else c :: rest

/-- Value of one hexadecimal digit character. -/
def hexVal (c : Char) : Option Nat :=
  if 48 ≤ c.toNat ∧ c.toNat ≤ 57 then some (c.toNat - 48)
  else if 97 ≤ c.toNat ∧ c.toNat ≤ 102 then some (c.toNat - 87)
  else if 65 ≤ c.toNat ∧ c.toNat ≤ 70 then some (c.toNat - 55)
  else none

/-- Decode one short escape after a backslash. -/
def unescChar (c : Char) : Option Char :=
  if c = quoteChar then some quoteChar
  else if c = backslashChar then some backslashChar
  else if c = '/' then some '/'
  else if c = 'b' then some (Char.ofNat 8)
  else if c = 'f' then some (Char.ofNat 12)
  else if c = 'n' then some (Char.ofNat 10)
  else if c = 'r' then some (Char.ofNat 13)
  else if c = 't' then some (Char.ofNat 9)
  else none

/-- Read a string-literal body up to its closing quote (the opening quote has
already been consumed), returning the decoded characters and the input after
the closing quote. `fuel` bounds the number of decoded characters. -/
def parseStrChars : Nat → List Char → Option (List Char × List Char)
  | 0, _ => none
  | _ + 1, [] => none
  | fuel + 1, c :: rest =>
    if c = quoteChar then some ([], rest)
    else if c = backslashChar then
      match rest with
      | [] => none
      | e :: rest2 =>
        if e = 'u' then
          match rest2 with
          | h1 :: h2 :: h3 :: h4 :: rest3 =>
            match hexVal h1, hexVal h2, hexVal h3, hexVal h4 with
            | some a, some b, some c2, some d =>
              (parseStrChars fuel rest3).map
                (fun p => (Char.ofNat (((a * 16 + b) * 16 + c2) * 16 + d)
                  :: p.1, p.2))
            | _, _, _, _ => none
          | _ => none
        else
          match unescChar e with
          | some d => (parseStrChars fuel rest2).map
              (fun p => (d :: p.1, p.2))
          | none => none
    else (parseStrChars fuel rest).map (fun p => (c :: p.1, p.2))

/-- Read one scalar of the artifact grammar: a string literal or `null`. -/
def parseScalar (cs : List Char) : Option (Json × List Char) :=
  match skipWs cs with
  | [] => none
  | c :: rest =>
    if c = quoteChar then
      (parseStrChars (rest.length + 1) rest).map
        (fun p => (Json.str (String.mk p.1), p.2))
    else if c = 'n' then
      match rest with
      | 'u' :: 'l' :: 'l' :: rest2 => some (Json.null, rest2)
      | _ => none
    else none

/-- Read one `"key": value` member. -/
def parseMember (cs : List Char) : Option ((String × Json) × List Char) :=
  match skipWs cs with
  | [] => none
  | c :: rest =>
    if c = quoteChar then
      match parseStrChars (rest.length + 1) rest with
      | none => none
      | some (k, r1) =>
        match skipWs r1 with
        | ':' :: r2 =>
          match parseScalar r2 with
          | none => none
          | some (v, r3) => some ((String.mk k, v), r3)
        | _ => none
    else none

/-- Read the members of a non-empty object, after its opening brace, up to
and including its closing brace. -/
def parseMembersLoop : Nat → List Char → List (String × Json) →
    Option (List (String × Json) × List Char)
  | 0, _, _ => none
  | fuel + 1, cs, acc =>
    match parseMember cs with
    | none => none
    | some (kv, r) =>
      match skipWs r with
      | [] => none
      | c :: r2 =>
        if c = ',' then parseMembersLoop fuel r2 (acc ++ [kv])
        else if c = cbraceChar then some (acc ++ [kv], r2)
        else none

/-- Read one object of the artifact grammar. -/
def parseObj (fuel : Nat) (cs : List Char) :
    Option (List (String × Json) × List Char) :=
  match skipWs cs with
  | [] => none
  | c :: rest =>
    if c = obraceChar then
      match skipWs rest with
      | [] => none
      | c2 :: r2 =>
        if c2 = cbraceChar then some ([], r2)
        else parseMembersLoop fuel (c2 :: r2) []
    else none

/-- Read the elements of a non-empty array of objects, up to and including
the closing bracket. -/
def parseElemsLoop : Nat → List Char → List (List (String × Json)) →
    Option (List (List (String × Json)) × List Char)
  | 0, _, _ => none
  | fuel + 1, cs, acc =>
    match parseObj fuel cs with
    | none => none
    | some (fields, r) =>
      match skipWs r with
      | [] => none
      | c :: r2 =>
        if c = ',' then parseElemsLoop fuel r2 (acc ++ [fields])
        else if c = ']' then some (acc ++ [fields], r2)
        else none

/-- Modelled from the spec: "reading the artifact back". The repository has
no reader of its own, so this is a standard JSON reader for the artifact
grammar (an array of flat objects whose values are strings or `null`),
returning each object as its ordered key/value list. It accepts arbitrary
inter-token whitespace and both escaped and verbatim characters inside
string literals. -/
def parseDoc (fuel : Nat) (cs : List Char) :
    Option (List (List (String × Json))) :=
  match skipWs cs with
  | [] => none
  | c :: rest =>
    if c = '[' then
      match skipWs rest with
      | [] => none
      | c2 :: r2 =>
        if c2 = ']' then
          if (skipWs r2).isEmpty then some [] else none
        else
          match parseElemsLoop fuel (c2 :: r2) [] with
          | none => none
          | some (objs, r3) =>
            if (skipWs r3).isEmpty then some objs else none
    else none

/-- The field list a `VideoRecord` serializes to, in writer order, with the
optional counters as explicit `null` when absent. -/
def optJson : Option String → Json
  | some s => Json.str s
  | none => Json.null

/-- Ordered key/value view of one record, field for field. -/
def recordFields (r : VideoRecord) : List (String × Json) :=
  [("video_id", Json.str r.video_id), ("title", Json.str r.title),
   ("publishedAt", Json.str r.publishedAt),
   ("duration", Json.str r.duration),
   ("viewCount", optJson r.viewCount), ("likeCount", optJson r.likeCount),
   ("commentCount", optJson r.commentCount)]

/-- `hexVal` decodes what `hexDigit` encodes. -/
theorem hexVal_hexDigit : ∀ n : Nat, n < 16 → hexVal (hexDigit n) = some n := by
  decide

/-- Escaping never shrinks a string. -/
theorem escape_length_ge (s : List Char) : s.length ≤ (escape s).length := by
  induction s with
  | nil => simp [escape]
  | cons c cs ih =>
    have hc : 1 ≤ (escChar c).length := by
      unfold escChar
      split_ifs <;> simp
    simp only [escape, List.length_append, List.length_cons]
    omega

/-- Reading back an escaped string body stops at the closing quote and
recovers the original characters exactly. -/
theorem parseStrChars_escape (s : List Char) :
    ∀ (fuel : Nat) (rest : List Char), s.length + 1 ≤ fuel →
      parseStrChars fuel (escape s ++ (quoteChar :: rest)) = some (s, rest) := by
  induction s with
  | nil =>
    intro fuel rest h
    match fuel, h with
    | g + 1, _ => simp [escape, parseStrChars]
  | cons c cs ih =>
    intro fuel rest h
    match fuel, h with
    | g + 1, h =>
      have hg : cs.length + 1 ≤ g := by
        simp only [List.length_cons] at h
        omega
      by_cases hq : c = quoteChar
      · subst hq
        have hstep : parseStrChars (g + 1)
            (escape (quoteChar :: cs) ++ (quoteChar :: rest)) =
            (parseStrChars g (escape cs ++ (quoteChar :: rest))).map
              (fun p => (quoteChar :: p.1, p.2)) := rfl
        rw [hstep, ih g rest hg]
        rfl
      · by_cases hb : c = backslashChar
        · subst hb
          have hstep : parseStrChars (g + 1)
              (escape (backslashChar :: cs) ++ (quoteChar :: rest)) =
              (parseStrChars g (escape cs ++ (quoteChar :: rest))).map
                (fun p => (backslashChar :: p.1, p.2)) := rfl
          rw [hstep, ih g rest hg]
          rfl
        · by_cases h8 : c = Char.ofNat 8
          · subst h8
            have hstep : parseStrChars (g + 1)
                (escape (Char.ofNat 8 :: cs) ++ (quoteChar :: rest)) =
                (parseStrChars g (escape cs ++ (quoteChar :: rest))).map
                  (fun p => (Char.ofNat 8 :: p.1, p.2)) := rfl
            rw [hstep, ih g rest hg]
            rfl
          · by_cases hf : c = Char.ofNat 12
            · subst hf
              have hstep : parseStrChars (g + 1)
                  (escape (Char.ofNat 12 :: cs) ++ (quoteChar :: rest)) =
                  (parseStrChars g (escape cs ++ (quoteChar :: rest))).map
                    (fun p => (Char.ofNat 12 :: p.1, p.2)) := rfl
              rw [hstep, ih g rest hg]
              rfl
            · by_cases hn : c = Char.ofNat 10
              · subst hn
                have hstep : parseStrChars (g + 1)
                    (escape (Char.ofNat 10 :: cs) ++ (quoteChar :: rest)) =
                    (parseStrChars g (escape cs ++ (quoteChar :: rest))).map
                      (fun p => (Char.ofNat 10 :: p.1, p.2)) := rfl
                rw [hstep, ih g rest hg]
                rfl
              · by_cases hr : c = Char.ofNat 13
                · subst hr
                  have hstep : parseStrChars (g + 1)
                      (escape (Char.ofNat 13 :: cs) ++ (quoteChar :: rest)) =
                      (parseStrChars g (escape cs ++ (quoteChar :: rest))).map
                        (fun p => (Char.ofNat 13 :: p.1, p.2)) := rfl
                  rw [hstep, ih g rest hg]
                  rfl
                · by_cases ht : c = Char.ofNat 9
                  · subst ht
                    have hstep : parseStrChars (g + 1)
                        (escape (Char.ofNat 9 :: cs) ++ (quoteChar :: rest)) =
                        (parseStrChars g (escape cs ++ (quoteChar :: rest))).map
                          (fun p => (Char.ofNat 9 :: p.1, p.2)) := rfl
                    rw [hstep, ih g rest hg]
                    rfl
                  · by_cases h32 : c.toNat < 32
                    · have hesc : escape (c :: cs) ++ (quoteChar :: rest) =
                          backslashChar :: 'u' :: '0' :: '0' ::
                            hexDigit (c.toNat / 16) :: hexDigit (c.toNat % 16)
                            :: (escape cs ++ (quoteChar :: rest)) := by
                        simp [escape, escChar, hq, hb, h8, hf, hn, hr, ht, h32]
                      rw [hesc]
                      simp only [parseStrChars,
                        show (backslashChar = quoteChar) = False from by decide,
                        show ('u' = 'u') = True from by decide,
                        hexVal_hexDigit _ (show c.toNat / 16 < 16 by omega),
                        hexVal_hexDigit _ (show c.toNat % 16 < 16 by omega),
                        if_false, if_true, ite_false, ite_true]
                      rw [ih g rest hg]
                      show some (Char.ofNat
                          (((0 * 16 + 0) * 16 + c.toNat / 16) * 16 +
                            c.toNat % 16) :: cs, rest) =
                        some (c :: cs, rest)
                      have harith : ((0 * 16 + 0) * 16 + c.toNat / 16) * 16 +
                          c.toNat % 16 = c.toNat := by omega
                      rw [harith, Char.ofNat_toNat]
                    · have hesc : escape (c :: cs) ++ (quoteChar :: rest) =
                          c :: (escape cs ++ (quoteChar :: rest)) := by
                        simp [escape, escChar, hq, hb, h8, hf, hn, hr, ht, h32]
                      rw [hesc]
                      simp only [parseStrChars, hq, hb, if_false, ite_false]
                      rw [ih g rest hg]
                      rfl

/-- Skipping whitespace drops a leading whitespace character. -/
theorem skipWs_cons_ws (c : Char) (h : isWsChar c = true) (l : List Char) :
    skipWs (c :: l) = skipWs l := by simp [skipWs, h]

/-- Skipping whitespace stops at a non-whitespace character. -/
theorem skipWs_cons_not_ws (c : Char) (h : isWsChar c = false)
    (l : List Char) : skipWs (c :: l) = c :: l := by simp [skipWs, h]

/-- Indentation is transparent to the whitespace skipper. -/
theorem skipWs_spacesN (n : Nat) (l : List Char) :
    skipWs (spacesN n ++ l) = skipWs l := by
  induction n with
  | zero => simp [spacesN]
  | succ m ih =>
    show skipWs ((' ' :: spacesN m) ++ l) = skipWs l
    rw [List.cons_append, skipWs_cons_ws ' ' (by decide)]
    exact ih

/-- Skipping whitespace is idempotent. -/
theorem skipWs_idem (l : List Char) : skipWs (skipWs l) = skipWs l := by
  induction l with
  | nil => rfl
  | cons c rest ih =>
    by_cases h : isWsChar c = true
    · rw [skipWs_cons_ws c h]
      exact ih
    · rw [Bool.not_eq_true] at h
      rw [skipWs_cons_not_ws c h, skipWs_cons_not_ws c h]

/-- The scalar reader only looks at its input through `skipWs`. -/
theorem parseScalar_congr (cs₁ cs₂ : List Char)
    (h : skipWs cs₁ = skipWs cs₂) : parseScalar cs₁ = parseScalar cs₂ := by
  simp only [parseScalar]
  rw [h]

/-- The member reader only looks at its input through `skipWs`. -/
theorem parseMember_congr (cs₁ cs₂ : List Char)
    (h : skipWs cs₁ = skipWs cs₂) : parseMember cs₁ = parseMember cs₂ := by
  simp only [parseMember]
  rw [h]

/-- The members loop only looks at its input through `skipWs`. -/
theorem parseMembersLoop_congr (fuel : Nat) (cs₁ cs₂ : List Char)
    (h : skipWs cs₁ = skipWs cs₂) (acc : List (String × Json)) :
    parseMembersLoop fuel cs₁ acc = parseMembersLoop fuel cs₂ acc := by
  cases fuel with
  | zero => rfl
  | succ g =>
    simp only [parseMembersLoop]
    rw [parseMember_congr cs₁ cs₂ h]

/-- The object reader only looks at its input through `skipWs`. -/
theorem parseObj_congr (fuel : Nat) (cs₁ cs₂ : List Char)
    (h : skipWs cs₁ = skipWs cs₂) : parseObj fuel cs₁ = parseObj fuel cs₂ := by
  simp only [parseObj]
  rw [h]

/-- The elements loop only looks at its input through `skipWs`. -/
theorem parseElemsLoop_congr (fuel : Nat) (cs₁ cs₂ : List Char)
    (h : skipWs cs₁ = skipWs cs₂) (acc : List (List (String × Json))) :
    parseElemsLoop fuel cs₁ acc = parseElemsLoop fuel cs₂ acc := by
  cases fuel with
  | zero => rfl
  | succ g =>
    simp only [parseElemsLoop]
    rw [parseObj_congr g cs₁ cs₂ h]

/-- Reading back a serialized string field. -/
theorem parseScalar_quoted (s : String) (rest : List Char) :
    parseScalar (quoteChars s.data ++ rest) = some (Json.str s, rest) := by
  have h1 : quoteChars s.data ++ rest =
      quoteChar :: (escape s.data ++ (quoteChar :: rest)) := by
    simp [quoteChars]
  rw [h1]
  simp only [parseScalar, skipWs_cons_not_ws quoteChar (by decide), if_true]
  rw [parseStrChars_escape s.data _ rest (by
    simp only [List.length_append, List.length_cons]
    have := escape_length_ge s.data
    omega)]
  rfl

/-- Reading back a serialized absent counter. -/
theorem parseScalar_null (rest : List Char) :
    parseScalar (nullChars ++ rest) = some (Json.null, rest) := rfl

/-- Reading back any serialized field value. -/
theorem parseScalar_dumpField (v : Option String) (rest : List Char) :
    parseScalar (dumpFieldChars v ++ rest) = some (optJson v, rest) := by
  cases v with
  | some s => exact parseScalar_quoted s rest
  | none => exact parseScalar_null rest

/-- Reading back one serialized member line. -/
theorem parseMember_memberChars (key : String) (v : Option String)
    (rest : List Char) :
    parseMember (memberChars key v rest) = some ((key, optJson v), rest) := by
  have h1 : memberChars key v rest = spacesN 8 ++ (quoteChar ::
      (escape key.data ++ (quoteChar ::
        (':' :: ' ' :: (dumpFieldChars v ++ rest))))) := by
    simp [memberChars, quoteChars]
  rw [h1]
  simp only [parseMember, skipWs_spacesN,
    skipWs_cons_not_ws quoteChar (by decide), if_true]
  rw [parseStrChars_escape key.data _ _ (by
    simp only [List.length_append, List.length_cons]
    have := escape_length_ge key.data
    omega)]
  show (match parseScalar (' ' :: (dumpFieldChars v ++ rest)) with
    | none => none
    | some (v', r3) => some ((String.mk key.data, v'), r3)) =
    some ((key, optJson v), rest)
  rw [parseScalar_congr (' ' :: (dumpFieldChars v ++ rest))
    (dumpFieldChars v ++ rest) (by rw [skipWs_cons_ws ' ' (by decide)])]
  rw [parseScalar_dumpField v rest]

/-- One non-final member line: read it, consume the separating comma, and
continue with the member added to the accumulator. -/
theorem parseMembersLoop_step (fuel : Nat) (key : String) (v : Option String)
    (next : List Char) (acc : List (String × Json)) :
    parseMembersLoop (fuel + 1)
      (memberChars key v (',' :: '\n' :: next)) acc =
      parseMembersLoop fuel ('\n' :: next) (acc ++ [(key, optJson v)]) := by
  simp only [parseMembersLoop]
  rw [parseMember_memberChars]
  rfl

/-- The final member line: read it and stop at the record's closing brace. -/
theorem parseMembersLoop_last (fuel : Nat) (key : String) (v : Option String)
    (rest : List Char) (acc : List (String × Json)) :
    parseMembersLoop (fuel + 1)
      (memberChars key v ('\n' :: (spacesN 4 ++ (cbraceChar :: rest)))) acc =
      some (acc ++ [(key, optJson v)], rest) := by
  simp only [parseMembersLoop]
  rw [parseMember_memberChars]
  rfl

/-- A leading newline is transparent to the members loop. -/
theorem parseMembersLoop_newline (fuel : Nat) (cs : List Char)
    (acc : List (String × Json)) :
    parseMembersLoop fuel ('\n' :: cs) acc = parseMembersLoop fuel cs acc :=
  parseMembersLoop_congr fuel _ cs (skipWs_cons_ws '\n' (by decide) cs) acc

/-- Reading back the seven member lines of one record recovers its fields in
writer order. -/
theorem parseMembersLoop_recordBody (r : VideoRecord) (rest : List Char)
    (fuel : Nat) (acc : List (String × Json)) :
    parseMembersLoop (fuel + 7) (recordBodyChars r rest) acc =
      some (acc ++ recordFields r, rest) := by
  rw [show recordBodyChars r rest =
    memberChars "video_id" (some r.video_id) (',' :: '\n' ::
      memberChars "title" (some r.title) (',' :: '\n' ::
        memberChars "publishedAt" (some r.publishedAt) (',' :: '\n' ::
          memberChars "duration" (some r.duration) (',' :: '\n' ::
            memberChars "viewCount" r.viewCount (',' :: '\n' ::
              memberChars "likeCount" r.likeCount (',' :: '\n' ::
                memberChars "commentCount" r.commentCount
                  ('\n' :: (spacesN 4 ++ (cbraceChar :: rest)))))))))
    from rfl]
  rw [show fuel + 7 = (fuel + 6) + 1 from rfl, parseMembersLoop_step,
    parseMembersLoop_newline]
  rw [show fuel + 6 = (fuel + 5) + 1 from rfl, parseMembersLoop_step,
    parseMembersLoop_newline]
  rw [show fuel + 5 = (fuel + 4) + 1 from rfl, parseMembersLoop_step,
    parseMembersLoop_newline]
  rw [show fuel + 4 = (fuel + 3) + 1 from rfl, parseMembersLoop_step,
    parseMembersLoop_newline]
  rw [show fuel + 3 = (fuel + 2) + 1 from rfl, parseMembersLoop_step,
    parseMembersLoop_newline]
  rw [show fuel + 2 = (fuel + 1) + 1 from rfl, parseMembersLoop_step,
    parseMembersLoop_newline]
  rw [parseMembersLoop_last]
  simp [recordFields, optJson, List.append_assoc]

/-- What remains of a member line once its indentation is skipped. -/
theorem skipWs_memberChars (key : String) (v : Option String)
    (rest : List Char) :
    skipWs (memberChars key v rest) = quoteChar ::
      (escape key.data ++ (quoteChar ::
        (':' :: ' ' :: (dumpFieldChars v ++ rest)))) := by
  have h1 : memberChars key v rest = spacesN 8 ++ (quoteChar ::
      (escape key.data ++ (quoteChar ::
        (':' :: ' ' :: (dumpFieldChars v ++ rest))))) := by
    simp [memberChars, quoteChars]
  rw [h1, skipWs_spacesN, skipWs_cons_not_ws quoteChar (by decide)]

/-- Reading back one serialized record object recovers its field list. -/
theorem parseObj_recordChars (r : VideoRecord) (rest : List Char)
    (fuel : Nat) :
    parseObj (fuel + 7) (recordChars r rest) = some (recordFields r, rest) := by
  obtain ⟨E, hE⟩ : ∃ E, skipWs ('\n' :: recordBodyChars r rest) =
      quoteChar :: E :=
    ⟨_, by
      rw [skipWs_cons_ws '\n' (by decide)]
      exact skipWs_memberChars _ _ _⟩
  rw [show recordChars r rest =
    spacesN 4 ++ (obraceChar :: '\n' :: recordBodyChars r rest) from rfl]
  simp only [parseObj, skipWs_spacesN,
    skipWs_cons_not_ws obraceChar (by decide), if_true]
  rw [hE]
  show parseMembersLoop (fuel + 7) (quoteChar :: E) [] =
    some (recordFields r, rest)
  have hcongr : parseMembersLoop (fuel + 7) (quoteChar :: E) [] =
      parseMembersLoop (fuel + 7) (recordBodyChars r rest) [] := by
    refine parseMembersLoop_congr _ _ _ ?_ _
    have hnl := skipWs_cons_ws '\n' (by decide) (recordBodyChars r rest)
    rw [skipWs_cons_not_ws quoteChar (by decide), ← hnl, hE]
  rw [hcongr, parseMembersLoop_recordBody r rest fuel []]
  simp

/-- What remains of a record object once its indentation is skipped. -/
theorem skipWs_recordChars (r : VideoRecord) (rest : List Char) :
    skipWs (recordChars r rest) =
      obraceChar :: ('\n' :: recordBodyChars r rest) := by
  rw [show recordChars r rest =
    spacesN 4 ++ (obraceChar :: '\n' :: recordBodyChars r rest) from rfl,
    skipWs_spacesN, skipWs_cons_not_ws obraceChar (by decide)]

/-- Reading back the serialized records of a non-empty artifact recovers
every record's field list, in order, and consumes the closing bracket. -/
theorem parseElemsLoop_recordsChars :
    ∀ (rs : List VideoRecord) (r : VideoRecord) (fuel : Nat)
      (acc : List (List (String × Json))),
      parseElemsLoop (8 * ((r :: rs) : List VideoRecord).length + fuel + 8)
        (recordsChars (r :: rs)) acc =
        some (acc ++ (r :: rs).map recordFields, []) := by
  intro rs
  induction rs with
  | nil =>
    intro r fuel acc
    rw [show recordsChars [r] = recordChars r ('\n' :: [']']) from rfl]
    rw [show 8 * ([r] : List VideoRecord).length + fuel + 8 =
      ((fuel + 8) + 7) + 1 from by simp; omega]
    simp only [parseElemsLoop]
    rw [parseObj_recordChars r ('\n' :: [']']) (fuel + 8)]
    rfl
  | cons r2 rs' ih =>
    intro r fuel acc
    rw [show recordsChars (r :: r2 :: rs') =
      recordChars r (',' :: '\n' :: recordsChars (r2 :: rs')) from rfl]
    rw [show 8 * ((r :: r2 :: rs') : List VideoRecord).length + fuel + 8 =
      ((8 * ((r2 :: rs') : List VideoRecord).length + fuel + 8) + 7) + 1
      from by simp [List.length_cons]; omega]
    simp only [parseElemsLoop]
    rw [parseObj_recordChars]
    show parseElemsLoop
        ((8 * ((r2 :: rs') : List VideoRecord).length + fuel + 8) + 7)
        ('\n' :: recordsChars (r2 :: rs')) (acc ++ [recordFields r]) =
      some (acc ++ (r :: r2 :: rs').map recordFields, [])
    have hnl := parseElemsLoop_congr
      ((8 * ((r2 :: rs') : List VideoRecord).length + fuel + 8) + 7)
      ('\n' :: recordsChars (r2 :: rs')) (recordsChars (r2 :: rs'))
      (skipWs_cons_ws '\n' (by decide) _) (acc ++ [recordFields r])
    rw [hnl]
    rw [show (8 * ((r2 :: rs') : List VideoRecord).length + fuel + 8) + 7 =
      8 * ((r2 :: rs') : List VideoRecord).length + (fuel + 7) + 8
      from by omega]
    rw [ih r2 (fuel + 7) (acc ++ [recordFields r])]
    simp [List.append_assoc]

/-- Reading back a whole serialized artifact recovers every record's field
list, in order. -/
theorem parseDoc_artifact (recs : List VideoRecord) :
    parseDoc (8 * recs.length + 8) (artifactChars recs) =
      some (recs.map recordFields) := by
  cases recs with
  | nil => rfl
  | cons r rs =>
    obtain ⟨T, hT⟩ : ∃ T, recordsChars (r :: rs) = recordChars r T := ⟨_, rfl⟩
    rw [show artifactChars (r :: rs) =
      '[' :: '\n' :: recordsChars (r :: rs) from rfl]
    simp only [parseDoc, skipWs_cons_not_ws '[' (by decide), if_true]
    rw [hT]
    have hsk : skipWs ('\n' :: recordChars r T) =
        obraceChar :: ('\n' :: recordBodyChars r T) := by
      rw [skipWs_cons_ws '\n' (by decide)]
      exact skipWs_recordChars r T
    rw [hsk]
    show (match parseElemsLoop (8 * ((r :: rs) : List VideoRecord).length + 8)
        (obraceChar :: ('\n' :: recordBodyChars r T)) [] with
      | none => none
      | some (objs, r3) => if (skipWs r3).isEmpty then some objs else none) =
      some ((r :: rs).map recordFields)
    have hcg : parseElemsLoop (8 * ((r :: rs) : List VideoRecord).length + 8)
        (obraceChar :: ('\n' :: recordBodyChars r T)) [] =
        parseElemsLoop (8 * ((r :: rs) : List VideoRecord).length + 8)
          (recordsChars (r :: rs)) [] := by
      refine parseElemsLoop_congr _ _ _ ?_ _
      rw [skipWs_cons_not_ws obraceChar (by decide), hT]
      exact (skipWs_recordChars r T).symm
    rw [hcg]
    rw [show 8 * ((r :: rs) : List VideoRecord).length + 8 =
      8 * ((r :: rs) : List VideoRecord).length + 0 + 8 from by omega]
    rw [parseElemsLoop_recordsChars rs r 0 []]
    rfl

/-- C8: writing any sequence of `VideoRecord`s with `save_to_json` and
reading the artifact back yields a field-for-field structurally identical
sequence (each record's ordered key/value list, absent counters as explicit
`null`); and every non-ASCII character is written verbatim, never escaped. -/
theorem c8_roundtrip_preserves_records :
    (∀ recs : List VideoRecord,
      parseDoc (8 * recs.length + 8) (save_to_json recs).data =
        some (recs.map recordFields)) ∧
    (∀ c : Char, 128 ≤ c.toNat → escChar c = [c]) := by
  constructor
  · intro recs
    show parseDoc (8 * recs.length + 8) (artifactChars recs) =
      some (recs.map recordFields)
    exact parseDoc_artifact recs
  · intro c h
    have hq : c ≠ quoteChar := by
      intro he; subst he; exact absurd h (by decide)
    have hb : c ≠ backslashChar := by
      intro he; subst he; exact absurd h (by decide)
    have h8 : c ≠ Char.ofNat 8 := by
      intro he; subst he; exact absurd h (by decide)
    have hf : c ≠ Char.ofNat 12 := by
      intro he; subst he; exact absurd h (by decide)
    have hn : c ≠ Char.ofNat 10 := by
      intro he; subst he; exact absurd h (by decide)
    have hr : c ≠ Char.ofNat 13 := by
      intro he; subst he; exact absurd h (by decide)
    have ht : c ≠ Char.ofNat 9 := by
      intro he; subst he; exact absurd h (by decide)
    have h32 : ¬(c.toNat < 32) := by omega
    simp [escChar, hq, hb, h8, hf, hn, hr, ht, h32]

/-- A concrete record with a non-ASCII title and two absent counters. -/
def sampleRecord : VideoRecord :=
  { video_id := "v1", title := "Tschüß", publishedAt := "2024-01-01T00:00:00Z",
    duration := "PT1M", viewCount := some "10", likeCount := none,
    commentCount := none }

/-- Witness for C8 at a concrete record list and a concrete non-ASCII
character. -/
theorem c8_witness :
    parseDoc (8 * ([sampleRecord] : List VideoRecord).length + 8)
        (save_to_json [sampleRecord]).data =
      some (([sampleRecord] : List VideoRecord).map recordFields) ∧
    (128 ≤ ('ü' : Char).toNat ∧ escChar 'ü' = ['ü']) :=
  ⟨c8_roundtrip_preserves_records.1 [sampleRecord],
    by decide, c8_roundtrip_preserves_records.2 'ü' (by decide)⟩
